import Mathlib

/-!
# UTCPClientComponent: a shallow embedding

Source: `Source/TCPNetworking/Private/TCPClientComponent.cpp` and
`Source/TCPNetworking/Public/TCPClientComponent.h`.

The component is embedded as a record of its member variables.  Every system
call the component issues (`socket`, `fcntl`, `connect`, `close`, `send`,
`recv`) takes its outcome from a `World`: for each kind of call, the outcome of
the k-th call of that kind.  A `Machine` pairs the component with the number of
calls of each kind issued so far and with the trace of everything observable the
component did (system calls, sleeps, delegate broadcasts, handler invocations).

`UE_LOG` diagnostics are not modelled: they do not influence control flow.
The `int32` members are integers; the only arithmetic on them, `AttemptCount++`
below `MaxReconAttemptCount`, cannot overflow.  `FPlatformProcess::Sleep` is an
event of the trace.  The outcome of `recv()` is what the kernel returns for a
buffer of `BufferSize` bytes; the embedding does not itself bound its length.
-/

namespace TCPClient

/-- One `uint8`. -/
abbrev Byte := Fin 256

/-- The `errno` values the component distinguishes; every other value is
`other code`. -/
inductive Errno
  | EAGAIN
  | EWOULDBLOCK
  | EINPROGRESS
  | other (code : Nat)
  deriving DecidableEq, Repr

/-- Outcome of `connect()`: `ok` is the return value `0`, `fail e` is a non-zero
return value with `errno = e`. -/
inductive ConnectRet
  | ok
  | fail (e : Errno)
  deriving DecidableEq, Repr

/-- Outcome of `recv()`: `fail e` is the return value `-1` with `errno = e`;
`got bytes` is the return value `bytes.length`, the kernel having written
`bytes` at the start of `Buffer` (`got []` is the return value `0`). -/
inductive RecvRet
  | fail (e : Errno)
  | got (bytes : List Byte)
  deriving DecidableEq, Repr

/-- A function bound to the `OnServerDisconnected` multicast delegate:
`reconnect` is the component's own `ConnectToServer` (bound by
`AddUniqueDynamic(this, &UTCPClientComponent::ConnectToServer)`); `observer id`
is a function of the host application, whose body lies outside the component
and is taken not to touch the component. -/
inductive Handler
  | reconnect
  | observer (id : Nat)
  deriving DecidableEq, Repr

/-- What the component observably does. -/
inductive Event
  | sysSocket
  | sysGetfl (fd : Int)
  | sysSetfl (fd : Int) (flags : Int)
  | sysConnect (fd : Int) (ip : String) (port : Int)
  | sysClose (fd : Int)
  | sysSend (fd : Int) (data : List Byte)
  | sysRecv (fd : Int) (size : Int)
  | sleep
  | serverDisconnected (ip : String) (port : Int)
  | handlerRun (h : Handler) (ip : String) (port : Int)
  | dataReceived (bytes : List Byte)
  deriving DecidableEq, Repr

/-- The outcomes of the system calls: `socket k` is the return value of the
k-th `socket()` call, and so on for each kind of call.  `O_NONBLOCK` is the
flag constant of `<fcntl.h>`. -/
structure World where
  O_NONBLOCK : Int
  socket : Nat → Int
  getfl : Nat → Int
  setfl : Nat → Int
  connect : Nat → ConnectRet
  send : Nat → Int
  recv : Nat → RecvRet

/-- The member variables of `UTCPClientComponent` (TCPClientComponent.h). -/
structure UTCPClientComponent where
  OnServerDisconnected : List Handler
  bReconnectOnFailure : Bool
  MaxReconAttemptCount : Int
  ReceiveBufferSize : Int
  SocketFD : Int
  bIsConnected : Bool
  ServerIP : String
  ServerPort : Int
  deriving DecidableEq, Repr

/-- The component, the number of system calls of each kind issued so far, and
the trace of events, oldest first. -/
structure Machine where
  client : UTCPClientComponent
  nSocket : Nat
  nGetfl : Nat
  nSetfl : Nat
  nConnect : Nat
  nSend : Nat
  nRecv : Nat
  trace : List Event
  deriving DecidableEq, Repr

/-- `UTCPClientComponent::UTCPClientComponent()`. -/
def construct : UTCPClientComponent :=
  { OnServerDisconnected := []
    bReconnectOnFailure := true
    MaxReconAttemptCount := 1000000
    ReceiveBufferSize := 1024
    SocketFD := -1
    bIsConnected := false
    ServerIP := ""
    ServerPort := 0 }

/-- A freshly constructed component, before any system call. -/
def boot : Machine :=
  { client := construct, nSocket := 0, nGetfl := 0, nSetfl := 0, nConnect := 0,
    nSend := 0, nRecv := 0, trace := [] }

/-- Append one event to the trace. -/
def emit (e : Event) (m : Machine) : Machine :=
  { m with trace := m.trace ++ [e] }

/-- `UTCPClientComponent::IsConnected`. -/
def IsConnected (c : UTCPClientComponent) : Bool :=
  c.bIsConnected && decide (c.SocketFD ≠ -1)

/-- `UTCPClientComponent::CloseConnection`. -/
def CloseConnection (m : Machine) : Machine :=
  if m.client.SocketFD ≠ -1 then
    { emit (.sysClose m.client.SocketFD) m with
      client := { m.client with SocketFD := -1, bIsConnected := false } }
  else m

/-- `UTCPClientComponent::SendData`. -/
def SendData (w : World) (Data : List Byte) (m : Machine) : Bool × Machine :=
  if !m.client.bIsConnected || decide (m.client.SocketFD = -1) then
    (false, m)
  else
    let SentBytes := w.send m.nSend
    let m1 := { emit (.sysSend m.client.SocketFD Data) m with nSend := m.nSend + 1 }
    if SentBytes = -1 then (false, m1) else (true, m1)

/-- The block "Switch to non-blocking mode" of `ConnectToSocket` (lines
113-123): `false` when the block executes `return false`. -/
def setNonBlocking (w : World) (m : Machine) : Bool × Machine :=
  let fd := m.client.SocketFD
  let flags := w.getfl m.nGetfl
  let m1 := { emit (.sysGetfl fd) m with nGetfl := m.nGetfl + 1 }
  if Int.land flags w.O_NONBLOCK = 0 then
    let flags2 := w.getfl m1.nGetfl
    let m2 := { emit (.sysGetfl fd) m1 with nGetfl := m1.nGetfl + 1 }
    let r := w.setfl m2.nSetfl
    let m3 := { emit (.sysSetfl fd (Int.lor flags2 w.O_NONBLOCK)) m2 with
                nSetfl := m2.nSetfl + 1 }
    if r < 0 then (false, m3) else (true, m3)
  else (true, m1)

/-- The `while (AttemptCount < MaxReconAttemptCount)` loop of `ConnectToSocket`
(lines 135-157).  The first argument is `MaxReconAttemptCount - AttemptCount`,
the number of iterations still allowed.  The result is `false` when the loop
executes `return false`, and `true` when control leaves the loop, by `break` or
because the loop condition fails. -/
def connectLoop (w : World) (IP : String) (Port : Int) : Nat → Machine → Bool × Machine
  | 0, m => (true, m)
  | n + 1, m =>
    let r := w.connect m.nConnect
    let m1 := { emit (.sysConnect m.client.SocketFD IP Port) m with
                nConnect := m.nConnect + 1 }
    match r with
    | .ok => (true, m1)
    | .fail e =>
      if e ≠ .EINPROGRESS ∧ m1.client.bReconnectOnFailure = false then
        (false, m1)
      else
        connectLoop w IP Port n (emit .sleep m1)

/-- The first lines of `ConnectToSocket` (lines 98-102): `CloseConnection()`,
then `SocketFD = socket(AF_INET, SOCK_STREAM, 0)`. -/
def openSocket (w : World) (m : Machine) : Machine :=
  let m0 := CloseConnection m
  { emit .sysSocket m0 with
    client := { m0.client with SocketFD := w.socket m0.nSocket }
    nSocket := m0.nSocket + 1 }

/-- `UTCPClientComponent::ConnectToSocket`. -/
def ConnectToSocket (w : World) (IP : String) (Port : Int) (m : Machine) :
    Bool × Machine :=
  let m1 := openSocket w m
  if m1.client.SocketFD = -1 then (false, m1)
  else
    let nb := setNonBlocking w m1
    if nb.1 = false then (false, nb.2)
    else
      let lp := connectLoop w IP Port nb.2.client.MaxReconAttemptCount.toNat nb.2
      if lp.1 = false then (false, lp.2)
      else
        (true, { lp.2 with client := { lp.2.client with bIsConnected := true } })

/-- `AddUniqueDynamic`: bind the handler unless it is bound already. -/
def AddUnique (h : Handler) (hs : List Handler) : List Handler :=
  if h ∈ hs then hs else hs ++ [h]

/-- `UTCPClientComponent::ConnectToServer`. -/
def ConnectToServer (w : World) (IP : String) (Port : Int) (m : Machine) : Machine :=
  if m.client.bIsConnected then m
  else
    let c1 := { m.client with ServerIP := IP, ServerPort := Port }
    let c2 :=
      if c1.bReconnectOnFailure then
        { c1 with OnServerDisconnected := AddUnique .reconnect c1.OnServerDisconnected }
      else c1
    (ConnectToSocket w c2.ServerIP c2.ServerPort { m with client := c2 }).2

/-- Invocation of one function bound to `OnServerDisconnected`. -/
def runHandler (w : World) (IP : String) (Port : Int) (m : Machine) (h : Handler) :
    Machine :=
  match h with
  | .reconnect => ConnectToServer w IP Port (emit (.handlerRun .reconnect IP Port) m)
  | .observer id => emit (.handlerRun (.observer id) IP Port) m

/-- `OnServerDisconnected.Broadcast(IP, Port)`: the functions bound when the
broadcast starts are invoked one after the other. -/
def BroadcastServerDisconnected (w : World) (IP : String) (Port : Int) (m : Machine) :
    Machine :=
  m.client.OnServerDisconnected.foldl (runHandler w IP Port)
    (emit (.serverDisconnected IP Port) m)

/-- `UTCPClientComponent::TryReceiveData`: the return value, `OutData` after the
call, and the machine after the call. -/
def TryReceiveData (w : World) (OutData : List Byte) (BufferSize : Int) (m : Machine) :
    Int × List Byte × Machine :=
  if !m.client.bIsConnected || decide (m.client.SocketFD = -1) then
    (0, OutData, m)
  else
    let r := w.recv m.nRecv
    let m1 := { emit (.sysRecv m.client.SocketFD BufferSize) m with nRecv := m.nRecv + 1 }
    match r with
    | .fail e =>
      if e = .EAGAIN ∨ e = .EWOULDBLOCK then (0, OutData, m1)
      else (0, OutData, m1)
    | .got [] =>
      let m2 := { m1 with client := { m1.client with bIsConnected := false } }
      (0, OutData, BroadcastServerDisconnected w m2.client.ServerIP m2.client.ServerPort m2)
    | .got (b :: bs) =>
      (((b :: bs).length : Int), OutData ++ (b :: bs), m1)

/-- `UTCPClientComponent::TickComponent`. -/
def TickComponent (w : World) (m : Machine) : Machine :=
  if m.client.bIsConnected && decide (m.client.SocketFD ≠ -1) then
    let r := TryReceiveData w [] m.client.ReceiveBufferSize m
    if r.1 > 0 then emit (.dataReceived r.2.1) r.2.2 else r.2.2
  else m

/-- What the host application can do with a component: the four callable
functions (`tick` is one `TickComponent`, the only caller of `TryReceiveData`),
a change of the three `EditAnywhere` properties, and the binding of a function
of its own to the `BlueprintAssignable` delegate `OnServerDisconnected`. -/
inductive Op
  | connectToServer (IP : String) (Port : Int)
  | sendData (Data : List Byte)
  | closeConnection
  | tick
  | configure (bReconnectOnFailure : Bool) (MaxReconAttemptCount : Int)
      (ReceiveBufferSize : Int)
  | bindObserver (id : Nat)
  deriving DecidableEq, Repr

/-- One operation of the host application. -/
def step (w : World) (m : Machine) : Op → Machine
  | .connectToServer IP Port => ConnectToServer w IP Port m
  | .sendData Data => (SendData w Data m).2
  | .closeConnection => CloseConnection m
  | .tick => TickComponent w m
  | .configure r n b =>
    { m with client := { m.client with bReconnectOnFailure := r,
                                       MaxReconAttemptCount := n,
                                       ReceiveBufferSize := b } }
  | .bindObserver id =>
    { m with client := { m.client with
               OnServerDisconnected := m.client.OnServerDisconnected ++ [.observer id] } }

/-- A sequence of operations, from the left. -/
def run (w : World) (m : Machine) (ops : List Op) : Machine :=
  ops.foldl (step w) m

/-- A world in which every call succeeds at once: `socket()` returns 3,
the socket is already non-blocking, `connect()` returns 0, `send()` accepts
nothing, `recv()` reports end-of-stream. -/
def calmWorld : World :=
  { O_NONBLOCK := 2048
    socket := fun _ => 3
    getfl := fun _ => 2048
    setfl := fun _ => 0
    connect := fun _ => .ok
    send := fun _ => 0
    recv := fun _ => .got [] }

/-- System calls and sleeps, as opposed to delegate broadcasts and handler
invocations. -/
def Event.isSys : Event → Bool
  | .serverDisconnected _ _ => false
  | .handlerRun _ _ _ => false
  | .dataReceived _ => false
  | _ => true

/-- The `OnServerDisconnected` broadcasts of a trace, with their arguments. -/
def disconnectBroadcasts (t : List Event) : List (String × Int) :=
  t.filterMap fun e =>
    match e with
    | .serverDisconnected ip port => some (ip, port)
    | _ => none

/-- The number of `ConnectToServer` calls made by `OnServerDisconnected`
broadcasts in a trace. -/
def reconnectCalls (t : List Event) : Nat :=
  t.countP fun e =>
    match e with
    | .handlerRun .reconnect _ _ => true
    | _ => false

/-- The `OnDataReceived` broadcasts of a trace, with their argument. -/
def dataBroadcasts (t : List Event) : List (List Byte) :=
  t.filterMap fun e =>
    match e with
    | .dataReceived bytes => some bytes
    | _ => none

/-- The bytes a `recv()` outcome puts in `Buffer`. -/
def RecvRet.bytes : RecvRet → List Byte
  | .fail _ => []
  | .got bs => bs

/-- The byte stream a sequence of `recv()` outcomes delivers. -/
def delivered : List RecvRet → List Byte
  | [] => []
  | r :: rs => r.bytes ++ delivered rs

/-- The `recv()` calls number `k`, `k + 1`, ... have the outcomes `rs`, in this
order: `rs` is the way `recv()` splits the stream. -/
def Delivers (w : World) : Nat → List RecvRet → Prop
  | _, [] => True
  | k, r :: rs => w.recv k = r ∧ Delivers w (k + 1) rs

/-- Successive `TryReceiveData` calls on one output buffer: each call appends
to what the calls before it left there. -/
def receiveMany (w : World) (BufferSize : Int) : Nat → List Byte → Machine →
    List Byte × Machine
  | 0, OutData, m => (OutData, m)
  | n + 1, OutData, m =>
    let r := TryReceiveData w OutData BufferSize m
    receiveMany w BufferSize n r.2.1 r.2.2

/-- A freshly constructed component with the two editable properties set. -/
def bootWith (bReconnectOnFailure : Bool) (MaxReconAttemptCount : Int) : Machine :=
  { boot with client := { construct with bReconnectOnFailure := bReconnectOnFailure,
                                         MaxReconAttemptCount := MaxReconAttemptCount } }

/-- A world whose server refuses every connection: a fresh socket is blocking,
`fcntl(F_SETFL)` succeeds, `connect()` fails with error 111 (`ECONNREFUSED`). -/
def refusedWorld : World :=
  { calmWorld with getfl := fun _ => 0, connect := fun _ => .fail (.other 111) }

/-- A world in which `connect()` always fails with `EINPROGRESS`. -/
def pendingWorld : World :=
  { calmWorld with getfl := fun _ => 0, connect := fun _ => .fail .EINPROGRESS }

/-- A world in which a fresh socket is blocking and `fcntl(F_SETFL)` fails. -/
def setflFailsWorld : World :=
  { calmWorld with getfl := fun _ => 0, setfl := fun _ => -1 }

/-- A world in which `send()` accepts one byte of whatever it is given. -/
def shortWriteWorld : World :=
  { calmWorld with send := fun _ => 1 }

/-- A world whose peer sends the bytes 1, 2, 3 and closes: `recv()` returns two
bytes, then would block, then returns one byte, then reports end-of-stream. -/
def streamWorld : World :=
  { calmWorld with
    recv := fun k =>
      match k with
      | 0 => .got [1, 2]
      | 1 => .fail .EAGAIN
      | 2 => .got [3]
      | _ => .got [] }

/-- The component after one successful `ConnectToServer` in a world, with the
constructor's settings but `MaxReconAttemptCount = 3`. -/
def connectedIn (w : World) : Machine :=
  run w boot [.configure true 3 1024, .connectToServer "10.0.0.1" 80]

/-! ## Basic facts -/

theorem IsConnected_iff (c : UTCPClientComponent) :
    IsConnected c = true ↔ c.bIsConnected = true ∧ c.SocketFD ≠ -1 := by
  simp [IsConnected]

/-- C5: on a component with `bIsConnected = true`, `ConnectToServer` returns at
once: the machine (member variables, bound handlers, system-call counts and
trace) is unchanged. -/
theorem ConnectToServer_rejected_when_connected (w : World) (IP : String) (Port : Int)
    (m : Machine) (h : m.client.bIsConnected = true) :
    ConnectToServer w IP Port m = m := by
  simp [ConnectToServer, h]

/-- C6: `CloseConnection` is idempotent; after one call `SocketFD = -1` and
`IsConnected()` is false; the second call leaves the machine, trace included, as
it is, so it issues no `close()`. -/
theorem CloseConnection_idempotent (m : Machine) :
    CloseConnection (CloseConnection m) = CloseConnection m ∧
    (CloseConnection m).client.SocketFD = -1 ∧
    IsConnected (CloseConnection m).client = false ∧
    (CloseConnection (CloseConnection m)).trace = (CloseConnection m).trace := by
  by_cases h : m.client.SocketFD = -1
  · simp [CloseConnection, h, IsConnected]
  · simp [CloseConnection, h, IsConnected, emit]

/-- C7: on a component that is not connected, `SendData` returns `false` and
`TryReceiveData` returns `0` with `OutData` as it was; the machine (member
variables, system-call counts, trace) is unchanged by either. -/
theorem SendData_TryReceiveData_noop_when_not_connected (w : World) (Data OutData : List Byte)
    (BufferSize : Int) (m : Machine)
    (h : m.client.bIsConnected = false ∨ m.client.SocketFD = -1) :
    SendData w Data m = (false, m) ∧
    TryReceiveData w OutData BufferSize m = (0, OutData, m) := by
  rcases h with h | h <;> simp [SendData, TryReceiveData, h]

theorem SendData_TryReceiveData_noop_when_not_connected_witness :
    (boot.client.bIsConnected = false ∨ boot.client.SocketFD = -1) ∧
    (SendData calmWorld [1, 2] boot = (false, boot) ∧
     TryReceiveData calmWorld [7] 1024 boot = (0, [7], boot)) :=
  ⟨by decide,
   SendData_TryReceiveData_noop_when_not_connected calmWorld [1, 2] [7] 1024 boot
     (by decide)⟩

/-! ## Frame lemmas for the pieces of `ConnectToSocket` -/

theorem CloseConnection_frame (m : Machine) :
    (CloseConnection m).client.OnServerDisconnected = m.client.OnServerDisconnected ∧
    (CloseConnection m).client.bReconnectOnFailure = m.client.bReconnectOnFailure ∧
    (CloseConnection m).client.MaxReconAttemptCount = m.client.MaxReconAttemptCount ∧
    (CloseConnection m).client.ReceiveBufferSize = m.client.ReceiveBufferSize ∧
    (CloseConnection m).client.ServerIP = m.client.ServerIP ∧
    (CloseConnection m).client.ServerPort = m.client.ServerPort ∧
    (CloseConnection m).nConnect = m.nConnect ∧
    (CloseConnection m).nSend = m.nSend ∧
    (CloseConnection m).nRecv = m.nRecv := by
  unfold CloseConnection
  split <;> simp [emit]

theorem setNonBlocking_frame (w : World) (m : Machine) :
    (setNonBlocking w m).2.client = m.client ∧
    (setNonBlocking w m).2.nConnect = m.nConnect ∧
    (setNonBlocking w m).2.nSend = m.nSend ∧
    (setNonBlocking w m).2.nRecv = m.nRecv := by
  unfold setNonBlocking
  simp only [emit]
  split
  · split <;> simp
  · simp

theorem setNonBlocking_ok (w : World) (m : Machine) (h : ∀ k, 0 ≤ w.setfl k) :
    (setNonBlocking w m).1 = true := by
  unfold setNonBlocking
  simp only [emit]
  split
  · have := h m.nSetfl
    split
    · omega
    · rfl
  · rfl

theorem connectLoop_frame (w : World) (IP : String) (Port : Int) (n : Nat) (m : Machine) :
    (connectLoop w IP Port n m).2.client = m.client ∧
    (connectLoop w IP Port n m).2.nSend = m.nSend ∧
    (connectLoop w IP Port n m).2.nRecv = m.nRecv := by
  induction n generalizing m with
  | zero => simp [connectLoop]
  | succ n ih =>
    unfold connectLoop
    simp only [emit]
    split
    · simp
    · split
      · simp
      · have := ih { client := m.client, nSocket := m.nSocket, nGetfl := m.nGetfl,
                     nSetfl := m.nSetfl, nConnect := m.nConnect + 1, nSend := m.nSend,
                     nRecv := m.nRecv,
                     trace := m.trace ++ [Event.sysConnect m.client.SocketFD IP Port] ++
                       [Event.sleep] }
        simpa using this

/-- When none of the next `n` calls of `connect()` returns 0 or takes the
`return false` branch, the loop runs out its budget: `n` calls, then control
leaves the loop. -/
theorem connectLoop_exhausted (w : World) (IP : String) (Port : Int) (n : Nat) (m : Machine)
    (h : ∀ k, k < n → ∃ e, w.connect (m.nConnect + k) = .fail e ∧
      (e = .EINPROGRESS ∨ m.client.bReconnectOnFailure = true)) :
    (connectLoop w IP Port n m).1 = true ∧
    (connectLoop w IP Port n m).2.nConnect = m.nConnect + n := by
  induction n generalizing m with
  | zero => simp [connectLoop]
  | succ n ih =>
    obtain ⟨e, he, hsoft⟩ := h 0 (Nat.succ_pos n)
    rw [Nat.add_zero] at he
    unfold connectLoop
    simp only [emit, he]
    have hcond : ¬ (e ≠ .EINPROGRESS ∧ m.client.bReconnectOnFailure = false) := by
      rcases hsoft with h1 | h1 <;> simp [h1]
    rw [if_neg hcond]
    have := ih { client := m.client, nSocket := m.nSocket, nGetfl := m.nGetfl,
                 nSetfl := m.nSetfl, nConnect := m.nConnect + 1, nSend := m.nSend,
                 nRecv := m.nRecv,
                 trace := m.trace ++ [Event.sysConnect m.client.SocketFD IP Port] ++
                   [Event.sleep] }
      (by
        intro k hk
        have := h (k + 1) (Nat.succ_lt_succ hk)
        simpa [Nat.add_assoc, Nat.add_comm 1 k] using this)
    constructor
    · exact this.1
    · rw [this.2]; simp; omega

theorem openSocket_frame (w : World) (m : Machine) :
    (openSocket w m).client.OnServerDisconnected = m.client.OnServerDisconnected ∧
    (openSocket w m).client.bReconnectOnFailure = m.client.bReconnectOnFailure ∧
    (openSocket w m).client.MaxReconAttemptCount = m.client.MaxReconAttemptCount ∧
    (openSocket w m).client.ReceiveBufferSize = m.client.ReceiveBufferSize ∧
    (openSocket w m).client.ServerIP = m.client.ServerIP ∧
    (openSocket w m).client.ServerPort = m.client.ServerPort ∧
    (openSocket w m).nConnect = m.nConnect ∧
    (openSocket w m).nSend = m.nSend ∧
    (openSocket w m).nRecv = m.nRecv := by
  have hc := CloseConnection_frame m
  simp [openSocket, emit, hc]

theorem openSocket_fd (w : World) (m : Machine) :
    (openSocket w m).client.SocketFD = w.socket (CloseConnection m).nSocket := by
  simp [openSocket]

/-- When the socket is created, switched to non-blocking mode, and no
`connect()` call returns 0 nor takes the `return false` branch,
`ConnectToSocket` issues `MaxReconAttemptCount` calls of `connect()` and then
reports the component connected. -/
theorem ConnectToSocket_exhausted (w : World) (IP : String) (Port : Int) (m : Machine)
    (hsock : ∀ k, w.socket k ≠ -1) (hnb : ∀ k, 0 ≤ w.setfl k)
    (h : ∀ k, k < m.client.MaxReconAttemptCount.toNat →
      ∃ e, w.connect (m.nConnect + k) = .fail e ∧
        (e = .EINPROGRESS ∨ m.client.bReconnectOnFailure = true)) :
    (ConnectToSocket w IP Port m).1 = true ∧
    IsConnected (ConnectToSocket w IP Port m).2.client = true ∧
    (ConnectToSocket w IP Port m).2.nConnect =
      m.nConnect + m.client.MaxReconAttemptCount.toNat := by
  have ho := openSocket_frame w m
  have hfd : (openSocket w m).client.SocketFD ≠ -1 := by
    rw [openSocket_fd]; exact hsock _
  unfold ConnectToSocket
  simp only []
  generalize openSocket w m = m1 at ho hfd ⊢
  have hnbf := setNonBlocking_frame w m1
  have hok := setNonBlocking_ok w m1 hnb
  generalize setNonBlocking w m1 = nb at hnbf hok ⊢
  have hre : ∀ k, k < nb.2.client.MaxReconAttemptCount.toNat →
      ∃ e, w.connect (nb.2.nConnect + k) = .fail e ∧
        (e = .EINPROGRESS ∨ nb.2.client.bReconnectOnFailure = true) := by
    intro k hk
    rw [hnbf.1, ho.2.2.1] at hk
    obtain ⟨e, he, hs⟩ := h k hk
    exact ⟨e, by rw [hnbf.2.1, ho.2.2.2.2.2.2.1]; exact he,
      by rw [hnbf.1, ho.2.1]; exact hs⟩
  have hl := connectLoop_exhausted w IP Port nb.2.client.MaxReconAttemptCount.toNat nb.2 hre
  have hlf := connectLoop_frame w IP Port nb.2.client.MaxReconAttemptCount.toNat nb.2
  generalize connectLoop w IP Port nb.2.client.MaxReconAttemptCount.toNat nb.2 = lp
    at hl hlf ⊢
  have hlp : ¬ (lp.1 = false) := by simp [hl.1]
  have hnb1 : ¬ (nb.1 = false) := by simp [hok]
  rw [if_neg hfd, if_neg hnb1, if_neg hlp]
  refine ⟨rfl, ?_, ?_⟩
  · simp only [IsConnected, Bool.true_and, decide_eq_true_eq]
    rw [hlf.1, hnbf.1]; exact hfd
  · show lp.2.nConnect = _
    rw [hl.2, hnbf.2.1, hnbf.1, ho.2.2.1, ho.2.2.2.2.2.2.1]

/-! ## What `ConnectToSocket` adds to the trace and leaves alone -/

theorem CloseConnection_trace (m : Machine) :
    ∃ evs, (CloseConnection m).trace = m.trace ++ evs ∧ ∀ e ∈ evs, Event.isSys e = true := by
  unfold CloseConnection
  split
  · exact ⟨[.sysClose m.client.SocketFD], by simp [emit], by simp [Event.isSys]⟩
  · exact ⟨[], by simp, by simp⟩

theorem openSocket_trace (w : World) (m : Machine) :
    ∃ evs, (openSocket w m).trace = m.trace ++ evs ∧ ∀ e ∈ evs, Event.isSys e = true := by
  obtain ⟨evs, h1, h2⟩ := CloseConnection_trace m
  refine ⟨evs ++ [.sysSocket], by simp [openSocket, emit, h1], ?_⟩
  intro e he
  rcases List.mem_append.1 he with h | h
  · exact h2 e h
  · simp at h; subst h; rfl

theorem setNonBlocking_trace (w : World) (m : Machine) :
    ∃ evs, (setNonBlocking w m).2.trace = m.trace ++ evs ∧
      ∀ e ∈ evs, Event.isSys e = true := by
  unfold setNonBlocking
  simp only [emit]
  split
  · refine ⟨[.sysGetfl m.client.SocketFD, .sysGetfl m.client.SocketFD,
      .sysSetfl m.client.SocketFD (Int.lor (w.getfl (m.nGetfl + 1)) w.O_NONBLOCK)], ?_, ?_⟩
    · split <;> simp
    · simp [Event.isSys]
  · exact ⟨[.sysGetfl m.client.SocketFD], by simp, by simp [Event.isSys]⟩

theorem connectLoop_trace (w : World) (IP : String) (Port : Int) (n : Nat) (m : Machine) :
    ∃ evs, (connectLoop w IP Port n m).2.trace = m.trace ++ evs ∧
      ∀ e ∈ evs, Event.isSys e = true := by
  induction n generalizing m with
  | zero => exact ⟨[], by simp [connectLoop], by simp⟩
  | succ n ih =>
    unfold connectLoop
    simp only [emit]
    split
    · exact ⟨[.sysConnect m.client.SocketFD IP Port], by simp, by simp [Event.isSys]⟩
    · split
      · exact ⟨[.sysConnect m.client.SocketFD IP Port], by simp, by simp [Event.isSys]⟩
      · obtain ⟨evs, h1, h2⟩ := ih
          { client := m.client, nSocket := m.nSocket, nGetfl := m.nGetfl,
            nSetfl := m.nSetfl, nConnect := m.nConnect + 1, nSend := m.nSend,
            nRecv := m.nRecv,
            trace := m.trace ++ [Event.sysConnect m.client.SocketFD IP Port] ++
              [Event.sleep] }
        refine ⟨[.sysConnect m.client.SocketFD IP Port, .sleep] ++ evs, ?_, ?_⟩
        · rw [h1]; simp
        · intro e he
          rcases List.mem_append.1 he with h | h
          · simp at h; rcases h with h | h <;> subst h <;> rfl
          · exact h2 e h

theorem ConnectToSocket_trace (w : World) (IP : String) (Port : Int) (m : Machine) :
    ∃ evs, (ConnectToSocket w IP Port m).2.trace = m.trace ++ evs ∧
      ∀ e ∈ evs, Event.isSys e = true := by
  obtain ⟨e1, a1, b1⟩ := openSocket_trace w m
  obtain ⟨e2, a2, b2⟩ := setNonBlocking_trace w (openSocket w m)
  obtain ⟨e3, a3, b3⟩ := connectLoop_trace w IP Port
    (setNonBlocking w (openSocket w m)).2.client.MaxReconAttemptCount.toNat
    (setNonBlocking w (openSocket w m)).2
  have all12 : ∀ e ∈ e1 ++ e2, Event.isSys e = true := by
    intro e he
    rcases List.mem_append.1 he with h | h
    · exact b1 e h
    · exact b2 e h
  have all123 : ∀ e ∈ e1 ++ e2 ++ e3, Event.isSys e = true := by
    intro e he
    rcases List.mem_append.1 he with h | h
    · exact all12 e h
    · exact b3 e h
  unfold ConnectToSocket
  simp only []
  split
  · exact ⟨e1, a1, b1⟩
  · split
    · exact ⟨e1 ++ e2, by rw [a2, a1, List.append_assoc], all12⟩
    · split
      · exact ⟨e1 ++ e2 ++ e3, by rw [a3, a2, a1]; simp, all123⟩
      · exact ⟨e1 ++ e2 ++ e3, by simp only []; rw [a3, a2, a1]; simp, all123⟩

theorem ConnectToSocket_frame (w : World) (IP : String) (Port : Int) (m : Machine) :
    (ConnectToSocket w IP Port m).2.client.OnServerDisconnected =
      m.client.OnServerDisconnected ∧
    (ConnectToSocket w IP Port m).2.client.bReconnectOnFailure =
      m.client.bReconnectOnFailure ∧
    (ConnectToSocket w IP Port m).2.client.MaxReconAttemptCount =
      m.client.MaxReconAttemptCount ∧
    (ConnectToSocket w IP Port m).2.client.ReceiveBufferSize =
      m.client.ReceiveBufferSize ∧
    (ConnectToSocket w IP Port m).2.client.ServerIP = m.client.ServerIP ∧
    (ConnectToSocket w IP Port m).2.client.ServerPort = m.client.ServerPort := by
  have ho := openSocket_frame w m
  have hn := setNonBlocking_frame w (openSocket w m)
  have hl := connectLoop_frame w IP Port
    (setNonBlocking w (openSocket w m)).2.client.MaxReconAttemptCount.toNat
    (setNonBlocking w (openSocket w m)).2
  unfold ConnectToSocket
  simp only []
  split
  · exact ⟨ho.1, ho.2.1, ho.2.2.1, ho.2.2.2.1, ho.2.2.2.2.1, ho.2.2.2.2.2.1⟩
  · split
    · rw [hn.1]
      exact ⟨ho.1, ho.2.1, ho.2.2.1, ho.2.2.2.1, ho.2.2.2.2.1, ho.2.2.2.2.2.1⟩
    · split
      · rw [hl.1, hn.1]
        exact ⟨ho.1, ho.2.1, ho.2.2.1, ho.2.2.2.1, ho.2.2.2.2.1, ho.2.2.2.2.2.1⟩
      · simp only []
        rw [hl.1, hn.1]
        exact ⟨ho.1, ho.2.1, ho.2.2.1, ho.2.2.2.1, ho.2.2.2.2.1, ho.2.2.2.2.2.1⟩

/-- The connection invariant after `ConnectToSocket`, whatever the system
calls return: a component left with `bIsConnected = true` has a socket. -/
theorem ConnectToSocket_connected_has_socket (w : World) (IP : String) (Port : Int)
    (m : Machine) (hm : m.client.bIsConnected = false) :
    (ConnectToSocket w IP Port m).2.client.bIsConnected = true →
    (ConnectToSocket w IP Port m).2.client.SocketFD ≠ -1 := by
  have hob : (openSocket w m).client.bIsConnected = false := by
    unfold openSocket CloseConnection
    split <;> simp [emit, hm]
  have hn := setNonBlocking_frame w (openSocket w m)
  have hl := connectLoop_frame w IP Port
    (setNonBlocking w (openSocket w m)).2.client.MaxReconAttemptCount.toNat
    (setNonBlocking w (openSocket w m)).2
  unfold ConnectToSocket
  simp only []
  split
  · intro h; rw [hob] at h; cases h
  · split
    · intro h; rw [hn.1, hob] at h; cases h
    · split
      · intro h; rw [hl.1, hn.1, hob] at h; cases h
      · rename_i hfd _ _
        intro _
        simp only []
        rw [hl.1, hn.1]
        exact hfd

/-! ## The connect loop's fall-through (C1, C2) -/

/-- C1 (what the code does): with `bReconnectOnFailure = true` and
`MaxReconAttemptCount = 3`, the socket created and made non-blocking, and each
of the three `connect()` calls failing with an error other than `EINPROGRESS`,
`ConnectToSocket` issues exactly three `connect()` calls and then returns
`true` with `IsConnected() = true`, where the claim has `false` and
Disconnected. -/
theorem ConnectToSocket_three_refusals_reports_connected (w : World) (IP : String)
    (Port : Int) (m : Machine)
    (hre : m.client.bReconnectOnFailure = true)
    (hmax : m.client.MaxReconAttemptCount = 3)
    (hsock : ∀ k, w.socket k ≠ -1) (hnb : ∀ k, 0 ≤ w.setfl k)
    (hconn : ∀ k, k < 3 → ∃ e, w.connect (m.nConnect + k) = .fail e ∧ e ≠ .EINPROGRESS) :
    (ConnectToSocket w IP Port m).1 = true ∧
    IsConnected (ConnectToSocket w IP Port m).2.client = true ∧
    (ConnectToSocket w IP Port m).2.nConnect = m.nConnect + 3 := by
  have h := ConnectToSocket_exhausted w IP Port m hsock hnb (by
    intro k hk
    rw [hmax] at hk
    obtain ⟨e, he, _⟩ := hconn k hk
    exact ⟨e, he, Or.inr hre⟩)
  rw [hmax] at h
  exact h

/-- With `bReconnectOnFailure = false` and no `connect()` call of the budget
returning 0, the loop executes `return false` exactly when one of those calls
fails with an error other than `EINPROGRESS`. -/
theorem connectLoop_no_reconnect (w : World) (IP : String) (Port : Int) (n : Nat)
    (m : Machine) (hre : m.client.bReconnectOnFailure = false)
    (hno : ∀ k, k < n → w.connect (m.nConnect + k) ≠ .ok) :
    (connectLoop w IP Port n m).1 = false ↔
      ∃ k, k < n ∧ w.connect (m.nConnect + k) ≠ .fail .EINPROGRESS := by
  induction n generalizing m with
  | zero => simp [connectLoop]
  | succ n ih =>
    have h0 := hno 0 (Nat.succ_pos n)
    rw [Nat.add_zero] at h0
    unfold connectLoop
    simp only [emit]
    cases hc : w.connect m.nConnect with
    | ok => exact absurd hc h0
    | fail e =>
      simp only []
      by_cases he : e = .EINPROGRESS
      · subst he
        rw [if_neg (by simp)]
        have := ih { client := m.client, nSocket := m.nSocket, nGetfl := m.nGetfl,
                     nSetfl := m.nSetfl, nConnect := m.nConnect + 1, nSend := m.nSend,
                     nRecv := m.nRecv,
                     trace := m.trace ++ [Event.sysConnect m.client.SocketFD IP Port] ++
                       [Event.sleep] } hre
          (by
            intro k hk
            have := hno (k + 1) (Nat.succ_lt_succ hk)
            simpa [Nat.add_assoc, Nat.add_comm 1 k] using this)
        rw [this]
        constructor
        · rintro ⟨k, hk, hk2⟩
          exact ⟨k + 1, Nat.succ_lt_succ hk, by
            simpa [Nat.add_assoc, Nat.add_comm 1 k] using hk2⟩
        · rintro ⟨k, hk, hk2⟩
          cases k with
          | zero => rw [Nat.add_zero, hc] at hk2; exact absurd rfl hk2
          | succ k =>
            exact ⟨k, Nat.lt_of_succ_lt_succ hk, by
              simpa [Nat.add_assoc, Nat.add_comm 1 k] using hk2⟩
      · rw [if_pos ⟨he, hre⟩]
        simp only [true_iff]
        exact ⟨0, Nat.succ_pos n, by rw [Nat.add_zero, hc]; simpa using he⟩

/-- C2 (what the code does): with `bReconnectOnFailure = false`, the socket
created and made non-blocking, and no `connect()` call of the budget returning
0, `ConnectToSocket` returns `false` exactly when one of the
`MaxReconAttemptCount` calls fails with an error other than `EINPROGRESS`, and
`IsConnected()` afterwards equals the value returned.  So when every call fails
with `EINPROGRESS`, and when `MaxReconAttemptCount = 0`, it returns `true` with
`IsConnected() = true`, where the claim has `false` and Disconnected. -/
theorem ConnectToSocket_no_reconnect_fails_iff_hard_error (w : World) (IP : String)
    (Port : Int) (m : Machine)
    (hre : m.client.bReconnectOnFailure = false)
    (hdis : m.client.bIsConnected = false)
    (hsock : ∀ k, w.socket k ≠ -1) (hnb : ∀ k, 0 ≤ w.setfl k)
    (hno : ∀ k, k < m.client.MaxReconAttemptCount.toNat →
      w.connect (m.nConnect + k) ≠ .ok) :
    ((ConnectToSocket w IP Port m).1 = false ↔
      ∃ k, k < m.client.MaxReconAttemptCount.toNat ∧
        w.connect (m.nConnect + k) ≠ .fail .EINPROGRESS) ∧
    IsConnected (ConnectToSocket w IP Port m).2.client = (ConnectToSocket w IP Port m).1 := by
  have ho := openSocket_frame w m
  have hfd : (openSocket w m).client.SocketFD ≠ -1 := by
    rw [openSocket_fd]; exact hsock _
  have hob : (openSocket w m).client.bIsConnected = false := by
    unfold openSocket CloseConnection
    split <;> simp [emit, hdis]
  unfold ConnectToSocket
  simp only []
  generalize openSocket w m = m1 at ho hfd hob ⊢
  have hnbf := setNonBlocking_frame w m1
  have hok := setNonBlocking_ok w m1 hnb
  generalize setNonBlocking w m1 = nb at hnbf hok ⊢
  have hmax : nb.2.client.MaxReconAttemptCount = m.client.MaxReconAttemptCount := by
    rw [hnbf.1, ho.2.2.1]
  have hcnt : nb.2.nConnect = m.nConnect := by rw [hnbf.2.1, ho.2.2.2.2.2.2.1]
  have hl := connectLoop_no_reconnect w IP Port nb.2.client.MaxReconAttemptCount.toNat nb.2
    (by rw [hnbf.1, ho.2.1]; exact hre) (by rw [hmax, hcnt]; exact hno)
  have hlf := connectLoop_frame w IP Port nb.2.client.MaxReconAttemptCount.toNat nb.2
  generalize connectLoop w IP Port nb.2.client.MaxReconAttemptCount.toNat nb.2 = lp
    at hl hlf ⊢
  rw [hmax, hcnt] at hl
  have hnb1 : ¬ (nb.1 = false) := by simp [hok]
  rw [if_neg hfd, if_neg hnb1]
  by_cases hlp : lp.1 = false
  · rw [if_pos hlp]
    refine ⟨⟨fun _ => hl.1 hlp, fun _ => rfl⟩, ?_⟩
    simp [IsConnected, hlf.1, hnbf.1, hob]
  · rw [if_neg hlp]
    refine ⟨⟨fun h => Bool.noConfusion h, fun h => absurd (hl.2 h) hlp⟩, ?_⟩
    simp only [IsConnected, Bool.true_and, decide_eq_true_eq]
    rw [hlf.1, hnbf.1]; exact hfd

/-! ## `ConnectToServer` and the `OnServerDisconnected` broadcast -/

theorem ConnectToServer_handlers (w : World) (IP : String) (Port : Int) (m : Machine) :
    (ConnectToServer w IP Port m).client.OnServerDisconnected =
      if m.client.bIsConnected = false ∧ m.client.bReconnectOnFailure = true then
        AddUnique .reconnect m.client.OnServerDisconnected
      else m.client.OnServerDisconnected := by
  unfold ConnectToServer
  by_cases hc : m.client.bIsConnected = true
  · simp [hc]
  · have hc2 : m.client.bIsConnected = false := by simpa using hc
    simp only [hc2, Bool.false_eq_true, if_false, true_and]
    rw [(ConnectToSocket_frame w _ _ _).1]
    by_cases hr : m.client.bReconnectOnFailure = true
    · simp [hr]
    · simp [hr]

theorem ConnectToServer_trace (w : World) (IP : String) (Port : Int) (m : Machine) :
    ∃ evs, (ConnectToServer w IP Port m).trace = m.trace ++ evs ∧
      ∀ e ∈ evs, Event.isSys e = true := by
  unfold ConnectToServer
  split
  · exact ⟨[], by simp, by simp⟩
  · exact ConnectToSocket_trace w _ _ _

theorem ConnectToServer_connected_has_socket (w : World) (IP : String) (Port : Int)
    (m : Machine) (hm : m.client.bIsConnected = true → m.client.SocketFD ≠ -1) :
    (ConnectToServer w IP Port m).client.bIsConnected = true →
    (ConnectToServer w IP Port m).client.SocketFD ≠ -1 := by
  unfold ConnectToServer
  split
  · exact hm
  · rename_i hc
    apply ConnectToSocket_connected_has_socket
    have hc2 : m.client.bIsConnected = false := by simpa using hc
    split <;> exact hc2

theorem count_reconnect_AddUnique (hs : List Handler) (h : hs.count .reconnect ≤ 1) :
    (AddUnique .reconnect hs).count .reconnect ≤ 1 := by
  unfold AddUnique
  split
  · exact h
  · rename_i hn
    rw [List.count_append, List.count_eq_zero_of_not_mem hn]
    simp

theorem mem_AddUnique (h : Handler) (hs : List Handler) : h ∈ AddUnique h hs := by
  unfold AddUnique
  split
  · assumption
  · simp

theorem subset_AddUnique (h g : Handler) (hs : List Handler) (hg : g ∈ hs) :
    g ∈ AddUnique h hs := by
  unfold AddUnique
  split
  · exact hg
  · exact List.mem_append_left _ hg

theorem ConnectToServer_unique (w : World) (IP : String) (Port : Int) (m : Machine)
    (h : m.client.OnServerDisconnected.count .reconnect ≤ 1) :
    (ConnectToServer w IP Port m).client.OnServerDisconnected.count .reconnect ≤ 1 := by
  rw [ConnectToServer_handlers]
  split
  · exact count_reconnect_AddUnique _ h
  · exact h

theorem ConnectToServer_keeps_bound (w : World) (IP : String) (Port : Int) (m : Machine)
    (g : Handler) (h : g ∈ m.client.OnServerDisconnected) :
    g ∈ (ConnectToServer w IP Port m).client.OnServerDisconnected := by
  rw [ConnectToServer_handlers]
  split
  · exact subset_AddUnique _ _ _ h
  · exact h

theorem disconnectBroadcasts_append (t u : List Event) :
    disconnectBroadcasts (t ++ u) = disconnectBroadcasts t ++ disconnectBroadcasts u := by
  simp [disconnectBroadcasts, List.filterMap_append]

theorem reconnectCalls_append (t u : List Event) :
    reconnectCalls (t ++ u) = reconnectCalls t + reconnectCalls u := by
  simp [reconnectCalls, List.countP_append]

theorem dataBroadcasts_append (t u : List Event) :
    dataBroadcasts (t ++ u) = dataBroadcasts t ++ dataBroadcasts u := by
  simp [dataBroadcasts, List.filterMap_append]

/-- System calls are neither broadcasts nor handler invocations. -/
theorem trace_functions_sys (evs : List Event) (h : ∀ e ∈ evs, Event.isSys e = true) :
    disconnectBroadcasts evs = [] ∧ reconnectCalls evs = 0 ∧ dataBroadcasts evs = [] := by
  induction evs with
  | nil => exact ⟨rfl, rfl, rfl⟩
  | cons e evs ih =>
    have he : Event.isSys e = true := h e (List.mem_cons_self _ _)
    obtain ⟨h1, h2, h3⟩ := ih (fun x hx => h x (List.mem_cons_of_mem _ hx))
    have e1 : disconnectBroadcasts (e :: evs) =
        disconnectBroadcasts [e] ++ disconnectBroadcasts evs :=
      disconnectBroadcasts_append [e] evs
    have e2 : reconnectCalls (e :: evs) = reconnectCalls [e] + reconnectCalls evs :=
      reconnectCalls_append [e] evs
    have e3 : dataBroadcasts (e :: evs) = dataBroadcasts [e] ++ dataBroadcasts evs :=
      dataBroadcasts_append [e] evs
    rw [e1, e2, e3, h1, h2, h3]
    cases e <;> first
      | exact ⟨rfl, rfl, rfl⟩
      | exact absurd he (by simp [Event.isSys])

/-- The trace functions ignore system calls. -/
theorem trace_functions_append_sys (t evs : List Event)
    (h : ∀ e ∈ evs, Event.isSys e = true) :
    disconnectBroadcasts (t ++ evs) = disconnectBroadcasts t ∧
    reconnectCalls (t ++ evs) = reconnectCalls t ∧
    dataBroadcasts (t ++ evs) = dataBroadcasts t := by
  obtain ⟨h1, h2, h3⟩ := trace_functions_sys evs h
  rw [disconnectBroadcasts_append, reconnectCalls_append, dataBroadcasts_append, h1, h2, h3]
  simp

theorem runHandler_trace (w : World) (IP : String) (Port : Int) (m : Machine) (h : Handler) :
    disconnectBroadcasts (runHandler w IP Port m h).trace = disconnectBroadcasts m.trace ∧
    reconnectCalls (runHandler w IP Port m h).trace =
      reconnectCalls m.trace + (if h = .reconnect then 1 else 0) ∧
    dataBroadcasts (runHandler w IP Port m h).trace = dataBroadcasts m.trace := by
  cases h with
  | reconnect =>
    obtain ⟨evs, h1, h2⟩ :=
      ConnectToServer_trace w IP Port (emit (.handlerRun .reconnect IP Port) m)
    obtain ⟨a, b, c⟩ := trace_functions_append_sys
      (emit (.handlerRun .reconnect IP Port) m).trace evs h2
    simp only [runHandler]
    rw [h1, a, b, c]
    simp only [emit, disconnectBroadcasts_append, reconnectCalls_append,
      dataBroadcasts_append]
    refine ⟨?_, ?_, ?_⟩
    · simp [disconnectBroadcasts]
    · simp [reconnectCalls]
    · simp [dataBroadcasts]
  | observer id =>
    simp only [runHandler, emit, disconnectBroadcasts_append, reconnectCalls_append,
      dataBroadcasts_append]
    refine ⟨?_, ?_, ?_⟩
    · simp [disconnectBroadcasts]
    · simp [reconnectCalls]
    · simp [dataBroadcasts]

theorem runHandler_connected_has_socket (w : World) (IP : String) (Port : Int) (m : Machine)
    (h : Handler) (hm : m.client.bIsConnected = true → m.client.SocketFD ≠ -1) :
    (runHandler w IP Port m h).client.bIsConnected = true →
    (runHandler w IP Port m h).client.SocketFD ≠ -1 := by
  cases h with
  | reconnect =>
    exact ConnectToServer_connected_has_socket w IP Port _ hm
  | observer id => exact hm

theorem runHandler_unique (w : World) (IP : String) (Port : Int) (m : Machine)
    (h : Handler) (hm : m.client.OnServerDisconnected.count .reconnect ≤ 1) :
    (runHandler w IP Port m h).client.OnServerDisconnected.count .reconnect ≤ 1 := by
  cases h with
  | reconnect => exact ConnectToServer_unique w IP Port _ hm
  | observer id => exact hm

theorem runHandler_keeps_bound (w : World) (IP : String) (Port : Int) (m : Machine)
    (h g : Handler) (hg : g ∈ m.client.OnServerDisconnected) :
    g ∈ (runHandler w IP Port m h).client.OnServerDisconnected := by
  cases h with
  | reconnect => exact ConnectToServer_keeps_bound w IP Port _ g hg
  | observer id => exact hg

theorem foldl_runHandler_trace (w : World) (IP : String) (Port : Int) (hs : List Handler)
    (m : Machine) :
    disconnectBroadcasts (hs.foldl (runHandler w IP Port) m).trace =
      disconnectBroadcasts m.trace ∧
    reconnectCalls (hs.foldl (runHandler w IP Port) m).trace =
      reconnectCalls m.trace + hs.count .reconnect ∧
    dataBroadcasts (hs.foldl (runHandler w IP Port) m).trace = dataBroadcasts m.trace := by
  induction hs generalizing m with
  | nil => simp
  | cons h hs ih =>
    obtain ⟨a, b, c⟩ := ih (runHandler w IP Port m h)
    obtain ⟨a1, b1, c1⟩ := runHandler_trace w IP Port m h
    simp only [List.foldl_cons]
    rw [a, b, c, a1, b1, c1]
    refine ⟨rfl, ?_, rfl⟩
    by_cases hh : h = .reconnect
    · subst hh; simp; omega
    · have : (Handler.reconnect == h) = false := by
        simpa using fun e => hh e.symm
      simp [hh, List.count_cons, this]

theorem foldl_runHandler_sound (w : World) (IP : String) (Port : Int) (hs : List Handler)
    (m : Machine) (hm : m.client.bIsConnected = true → m.client.SocketFD ≠ -1)
    (hu : m.client.OnServerDisconnected.count .reconnect ≤ 1) :
    ((hs.foldl (runHandler w IP Port) m).client.bIsConnected = true →
      (hs.foldl (runHandler w IP Port) m).client.SocketFD ≠ -1) ∧
    (hs.foldl (runHandler w IP Port) m).client.OnServerDisconnected.count .reconnect ≤ 1 := by
  induction hs generalizing m with
  | nil => exact ⟨hm, hu⟩
  | cons h hs ih =>
    exact ih (runHandler w IP Port m h) (runHandler_connected_has_socket w IP Port m h hm)
      (runHandler_unique w IP Port m h hu)

theorem foldl_runHandler_keeps_bound (w : World) (IP : String) (Port : Int)
    (hs : List Handler) (m : Machine) (g : Handler)
    (hg : g ∈ m.client.OnServerDisconnected) :
    g ∈ (hs.foldl (runHandler w IP Port) m).client.OnServerDisconnected := by
  induction hs generalizing m with
  | nil => exact hg
  | cons h hs ih => exact ih (runHandler w IP Port m h) (runHandler_keeps_bound w IP Port m h g hg)

/-- Observers leave the component alone: a broadcast to observers only is a
broadcast that changes no member variable. -/
theorem foldl_runHandler_observers (w : World) (IP : String) (Port : Int)
    (hs : List Handler) (m : Machine) (h : Handler.reconnect ∉ hs) :
    (hs.foldl (runHandler w IP Port) m).client = m.client := by
  induction hs generalizing m with
  | nil => rfl
  | cons g hs ih =>
    have hg : g ≠ .reconnect := fun e => h (by rw [e]; exact List.mem_cons_self _ _)
    have hrest : Handler.reconnect ∉ hs := fun e => h (List.mem_cons_of_mem _ e)
    simp only [List.foldl_cons]
    rw [ih _ hrest]
    cases g with
    | reconnect => exact absurd rfl hg
    | observer id => rfl

/-! ## `TryReceiveData`, case by case -/

theorem TryReceiveData_eof_eq (w : World) (OutData : List Byte) (BufferSize : Int)
    (m : Machine) (hc : IsConnected m.client = true) (h : w.recv m.nRecv = .got []) :
    TryReceiveData w OutData BufferSize m =
      (0, OutData,
        BroadcastServerDisconnected w m.client.ServerIP m.client.ServerPort
          { emit (.sysRecv m.client.SocketFD BufferSize) m with
            nRecv := m.nRecv + 1
            client := { m.client with bIsConnected := false } }) := by
  obtain ⟨hb, hfd⟩ := (IsConnected_iff _).1 hc
  simp [TryReceiveData, hb, hfd, h, emit]

theorem TryReceiveData_bytes_eq (w : World) (OutData : List Byte) (BufferSize : Int)
    (m : Machine) (hc : IsConnected m.client = true) (chunk : List Byte)
    (hne : chunk ≠ []) (h : w.recv m.nRecv = .got chunk) :
    TryReceiveData w OutData BufferSize m =
      ((chunk.length : Int), OutData ++ chunk,
        { emit (.sysRecv m.client.SocketFD BufferSize) m with nRecv := m.nRecv + 1 }) := by
  obtain ⟨hb, hfd⟩ := (IsConnected_iff _).1 hc
  cases chunk with
  | nil => exact absurd rfl hne
  | cons b bs => simp [TryReceiveData, hb, hfd, h, emit]

theorem TryReceiveData_error_eq (w : World) (OutData : List Byte) (BufferSize : Int)
    (m : Machine) (hc : IsConnected m.client = true) (e : Errno)
    (h : w.recv m.nRecv = .fail e) :
    TryReceiveData w OutData BufferSize m =
      (0, OutData,
        { emit (.sysRecv m.client.SocketFD BufferSize) m with nRecv := m.nRecv + 1 }) := by
  obtain ⟨hb, hfd⟩ := (IsConnected_iff _).1 hc
  simp [TryReceiveData, hb, hfd, h, emit]

theorem TryReceiveData_not_connected_eq (w : World) (OutData : List Byte) (BufferSize : Int)
    (m : Machine) (hc : IsConnected m.client = false) :
    TryReceiveData w OutData BufferSize m = (0, OutData, m) := by
  have : m.client.bIsConnected = false ∨ m.client.SocketFD = -1 := by
    by_cases hb : m.client.bIsConnected = true
    · right
      simpa [IsConnected, hb] using hc
    · left
      simpa using hb
  rcases this with h | h <;> simp [TryReceiveData, h]

theorem Broadcast_sound (w : World) (IP : String) (Port : Int) (m : Machine)
    (hm : m.client.bIsConnected = true → m.client.SocketFD ≠ -1)
    (hu : m.client.OnServerDisconnected.count .reconnect ≤ 1) :
    ((BroadcastServerDisconnected w IP Port m).client.bIsConnected = true →
      (BroadcastServerDisconnected w IP Port m).client.SocketFD ≠ -1) ∧
    (BroadcastServerDisconnected w IP Port m).client.OnServerDisconnected.count
      .reconnect ≤ 1 :=
  foldl_runHandler_sound w IP Port _ (emit (.serverDisconnected IP Port) m) hm hu

theorem TryReceiveData_sound (w : World) (OutData : List Byte) (BufferSize : Int)
    (m : Machine) (hm : m.client.bIsConnected = true → m.client.SocketFD ≠ -1)
    (hu : m.client.OnServerDisconnected.count .reconnect ≤ 1) :
    ((TryReceiveData w OutData BufferSize m).2.2.client.bIsConnected = true →
      (TryReceiveData w OutData BufferSize m).2.2.client.SocketFD ≠ -1) ∧
    (TryReceiveData w OutData BufferSize m).2.2.client.OnServerDisconnected.count
      .reconnect ≤ 1 := by
  by_cases hc : IsConnected m.client = true
  · cases hr : w.recv m.nRecv with
    | fail e =>
      rw [TryReceiveData_error_eq w OutData BufferSize m hc e hr]
      exact ⟨hm, hu⟩
    | got chunk =>
      by_cases hne : chunk = []
      · subst hne
        rw [TryReceiveData_eof_eq w OutData BufferSize m hc hr]
        exact Broadcast_sound w _ _ _ (fun h => Bool.noConfusion h) hu
      · rw [TryReceiveData_bytes_eq w OutData BufferSize m hc chunk hne hr]
        exact ⟨hm, hu⟩
  · rw [TryReceiveData_not_connected_eq w OutData BufferSize m (by simpa using hc)]
    exact ⟨hm, hu⟩

theorem TryReceiveData_keeps_bound (w : World) (OutData : List Byte) (BufferSize : Int)
    (m : Machine) (g : Handler) (hg : g ∈ m.client.OnServerDisconnected) :
    g ∈ (TryReceiveData w OutData BufferSize m).2.2.client.OnServerDisconnected := by
  by_cases hc : IsConnected m.client = true
  · cases hr : w.recv m.nRecv with
    | fail e =>
      rw [TryReceiveData_error_eq w OutData BufferSize m hc e hr]
      exact hg
    | got chunk =>
      by_cases hne : chunk = []
      · subst hne
        rw [TryReceiveData_eof_eq w OutData BufferSize m hc hr]
        exact foldl_runHandler_keeps_bound w _ _ _ _ g hg
      · rw [TryReceiveData_bytes_eq w OutData BufferSize m hc chunk hne hr]
        exact hg
  · rw [TryReceiveData_not_connected_eq w OutData BufferSize m (by simpa using hc)]
    exact hg

theorem TickComponent_client (w : World) (m : Machine) :
    (TickComponent w m).client =
      (TryReceiveData w [] m.client.ReceiveBufferSize m).2.2.client := by
  unfold TickComponent
  split
  · simp only []
    split <;> rfl
  · rename_i hc
    rw [TryReceiveData_not_connected_eq w [] _ m (by simpa [IsConnected] using hc)]

/-- The invariants of the component: a component with `bIsConnected = true` has
a socket, and `ConnectToServer` is bound to `OnServerDisconnected` at most
once.  Every operation keeps them. -/
theorem step_sound (w : World) (m : Machine) (op : Op)
    (hm : m.client.bIsConnected = true → m.client.SocketFD ≠ -1)
    (hu : m.client.OnServerDisconnected.count .reconnect ≤ 1) :
    ((step w m op).client.bIsConnected = true → (step w m op).client.SocketFD ≠ -1) ∧
    (step w m op).client.OnServerDisconnected.count .reconnect ≤ 1 := by
  cases op with
  | connectToServer IP Port =>
    exact ⟨ConnectToServer_connected_has_socket w IP Port m hm,
      ConnectToServer_unique w IP Port m hu⟩
  | sendData Data =>
    have : (SendData w Data m).2.client = m.client := by
      unfold SendData
      split
      · rfl
      · simp only []
        split <;> rfl
    simp only [step, this]
    exact ⟨hm, hu⟩
  | closeConnection =>
    simp only [step]
    unfold CloseConnection
    split
    · exact ⟨fun h => Bool.noConfusion h, hu⟩
    · exact ⟨hm, hu⟩
  | tick =>
    simp only [step, TickComponent_client]
    exact TryReceiveData_sound w [] _ m hm hu
  | configure r n b => exact ⟨hm, hu⟩
  | bindObserver id =>
    refine ⟨hm, ?_⟩
    simp only [step, List.count_append]
    simpa using hu

theorem run_sound (w : World) (ops : List Op) (m : Machine)
    (hm : m.client.bIsConnected = true → m.client.SocketFD ≠ -1)
    (hu : m.client.OnServerDisconnected.count .reconnect ≤ 1) :
    ((run w m ops).client.bIsConnected = true → (run w m ops).client.SocketFD ≠ -1) ∧
    (run w m ops).client.OnServerDisconnected.count .reconnect ≤ 1 := by
  induction ops generalizing m with
  | nil => exact ⟨hm, hu⟩
  | cons op ops ih =>
    obtain ⟨a, b⟩ := step_sound w m op hm hu
    exact ih (step w m op) a b

/-! ## Witnesses for C1, C2 and C5 -/

theorem ConnectToSocket_three_refusals_reports_connected_witness :
    (bootWith true 3).client.bReconnectOnFailure = true ∧
    (bootWith true 3).client.MaxReconAttemptCount = 3 ∧
    ((ConnectToSocket refusedWorld "10.0.0.1" 80 (bootWith true 3)).1 = true ∧
     IsConnected (ConnectToSocket refusedWorld "10.0.0.1" 80 (bootWith true 3)).2.client
       = true ∧
     (ConnectToSocket refusedWorld "10.0.0.1" 80 (bootWith true 3)).2.nConnect
       = (bootWith true 3).nConnect + 3) :=
  ⟨rfl, rfl,
   ConnectToSocket_three_refusals_reports_connected refusedWorld "10.0.0.1" 80
     (bootWith true 3) rfl rfl (fun _ => show (3 : Int) ≠ -1 by decide)
     (fun _ => show (0 : Int) ≤ 0 by decide)
     (fun _ _ => ⟨.other 111, rfl, by decide⟩)⟩

theorem ConnectToSocket_no_reconnect_fails_iff_hard_error_witness :
    (bootWith false 0).client.bReconnectOnFailure = false ∧
    (bootWith false 0).client.MaxReconAttemptCount = 0 ∧
    (ConnectToSocket refusedWorld "10.0.0.1" 80 (bootWith false 0)).1 = true ∧
    IsConnected (ConnectToSocket refusedWorld "10.0.0.1" 80 (bootWith false 0)).2.client
      = true := by
  have h := ConnectToSocket_no_reconnect_fails_iff_hard_error refusedWorld "10.0.0.1" 80
    (bootWith false 0) rfl rfl (fun _ => show (3 : Int) ≠ -1 by decide)
    (fun _ => show (0 : Int) ≤ 0 by decide)
    (fun _ _ => show ConnectRet.fail (.other 111) ≠ .ok by decide)
  have hret : (ConnectToSocket refusedWorld "10.0.0.1" 80 (bootWith false 0)).1 = true := by
    cases hb : (ConnectToSocket refusedWorld "10.0.0.1" 80 (bootWith false 0)).1 with
    | true => rfl
    | false =>
      obtain ⟨k, hk, _⟩ := h.1.1 hb
      exact absurd hk (Nat.not_lt_zero k)
  exact ⟨rfl, rfl, hret, h.2.trans hret⟩

theorem ConnectToServer_rejected_when_connected_witness :
    (connectedIn calmWorld).client.bIsConnected = true ∧
    ConnectToServer refusedWorld "10.0.0.2" 81 (connectedIn calmWorld) =
      connectedIn calmWorld :=
  ⟨by decide,
   ConnectToServer_rejected_when_connected refusedWorld "10.0.0.2" 81
     (connectedIn calmWorld) (by decide)⟩

/-! ## C10: `SendData` -/

/-- C10 (as stated, refuted): on a connected component `send()` accepts one of
three bytes and `SendData` returns `true`. -/
theorem SendData_short_write_reports_success :
    IsConnected (connectedIn shortWriteWorld).client = true ∧
    (SendData shortWriteWorld [1, 2, 3] (connectedIn shortWriteWorld)).1 = true ∧
    shortWriteWorld.send (connectedIn shortWriteWorld).nSend = 1 ∧
    shortWriteWorld.send (connectedIn shortWriteWorld).nSend ≠
      (([1, 2, 3] : List Byte).length : Int) := by
  decide

/-- C10 (amended): on a connected component `SendData` issues exactly one
`send()` call, with all of `Data`; it returns `false` exactly when that call
returns `-1`, so `true` for every other return value, a byte count below
`Data.Num()` included; it changes no member variable. -/
theorem SendData_connected (w : World) (Data : List Byte) (m : Machine)
    (hc : IsConnected m.client = true) :
    ((SendData w Data m).1 = false ↔ w.send m.nSend = -1) ∧
    (SendData w Data m).2.nSend = m.nSend + 1 ∧
    (SendData w Data m).2.trace = m.trace ++ [.sysSend m.client.SocketFD Data] ∧
    (SendData w Data m).2.client = m.client := by
  obtain ⟨hb, hfd⟩ := (IsConnected_iff _).1 hc
  by_cases hs : w.send m.nSend = -1
  · simp [SendData, hb, hfd, hs, emit]
  · simp [SendData, hb, hfd, hs, emit]

theorem SendData_connected_witness :
    IsConnected (connectedIn shortWriteWorld).client = true ∧
    (((SendData shortWriteWorld [1, 2, 3] (connectedIn shortWriteWorld)).1 = false ↔
        shortWriteWorld.send (connectedIn shortWriteWorld).nSend = -1) ∧
     (SendData shortWriteWorld [1, 2, 3] (connectedIn shortWriteWorld)).2.nSend =
        (connectedIn shortWriteWorld).nSend + 1 ∧
     (SendData shortWriteWorld [1, 2, 3] (connectedIn shortWriteWorld)).2.trace =
        (connectedIn shortWriteWorld).trace ++
          [.sysSend (connectedIn shortWriteWorld).client.SocketFD [1, 2, 3]] ∧
     (SendData shortWriteWorld [1, 2, 3] (connectedIn shortWriteWorld)).2.client =
        (connectedIn shortWriteWorld).client) :=
  ⟨by decide,
   SendData_connected shortWriteWorld [1, 2, 3] (connectedIn shortWriteWorld) (by decide)⟩

/-! ## C3: the socket and the connection flag -/

/-- C3 (as stated, refuted): two reachable states with a socket handle and
`bIsConnected = false`.  In the first, `ConnectToServer` on a fresh component
creates the socket and `fcntl(F_SETFL)` fails.  In the second, auto-reconnect
is off, `ConnectToServer` succeeds and the next tick sees end-of-stream. -/
theorem socket_outlives_connection :
    ((run setflFailsWorld boot [.connectToServer "10.0.0.1" 80]).client.SocketFD ≠ -1 ∧
     (run setflFailsWorld boot [.connectToServer "10.0.0.1" 80]).client.bIsConnected
       = false) ∧
    ((run calmWorld boot
        [.configure false 3 1024, .connectToServer "10.0.0.1" 80]).client.bIsConnected
       = true ∧
     (run calmWorld boot
        [.configure false 3 1024, .connectToServer "10.0.0.1" 80, .tick]).client.SocketFD
       ≠ -1 ∧
     (run calmWorld boot
        [.configure false 3 1024, .connectToServer "10.0.0.1" 80, .tick]).client.bIsConnected
       = false) := by
  decide

/-- C3 (amended): in every state reachable from the constructor's state by
`ConnectToServer`, `SendData`, `CloseConnection`, `TickComponent`, changes of
the editable properties and bindings of observers, under any system-call
outcomes, `bIsConnected = true` implies `SocketFD ≠ -1`. -/
theorem reachable_connected_has_socket (w : World) (ops : List Op)
    (h : (run w boot ops).client.bIsConnected = true) :
    (run w boot ops).client.SocketFD ≠ -1 :=
  (run_sound w ops boot (by decide) (by decide)).1 h

theorem reachable_connected_has_socket_witness :
    (run calmWorld boot [.connectToServer "10.0.0.1" 80, .sendData [1]]).client.bIsConnected
      = true ∧
    (run calmWorld boot [.connectToServer "10.0.0.1" 80, .sendData [1]]).client.SocketFD
      ≠ -1 :=
  ⟨by decide,
   reachable_connected_has_socket calmWorld [.connectToServer "10.0.0.1" 80, .sendData [1]]
     (by decide)⟩

/-! ## C4 and C8: end-of-stream and the auto-reconnect handler -/

theorem Broadcast_trace (w : World) (IP : String) (Port : Int) (m : Machine) :
    disconnectBroadcasts (BroadcastServerDisconnected w IP Port m).trace =
      disconnectBroadcasts m.trace ++ [(IP, Port)] ∧
    reconnectCalls (BroadcastServerDisconnected w IP Port m).trace =
      reconnectCalls m.trace + m.client.OnServerDisconnected.count .reconnect ∧
    dataBroadcasts (BroadcastServerDisconnected w IP Port m).trace =
      dataBroadcasts m.trace := by
  obtain ⟨a, b, c⟩ := foldl_runHandler_trace w IP Port m.client.OnServerDisconnected
    (emit (.serverDisconnected IP Port) m)
  unfold BroadcastServerDisconnected
  rw [a, b, c]
  simp only [emit, disconnectBroadcasts_append, reconnectCalls_append,
    dataBroadcasts_append]
  refine ⟨?_, ?_, ?_⟩
  · simp [disconnectBroadcasts]
  · simp [reconnectCalls]
  · simp [dataBroadcasts]

theorem count_reconnect_of_unique (hs : List Handler) (h : hs.count .reconnect ≤ 1) :
    hs.count .reconnect = if Handler.reconnect ∈ hs then 1 else 0 := by
  by_cases hm : Handler.reconnect ∈ hs
  · have := List.count_pos_iff.2 hm
    rw [if_pos hm]
    omega
  · rw [if_neg hm, List.count_eq_zero_of_not_mem hm]

theorem step_keeps_bound (w : World) (m : Machine) (op : Op) (g : Handler)
    (hg : g ∈ m.client.OnServerDisconnected) :
    g ∈ (step w m op).client.OnServerDisconnected := by
  cases op with
  | connectToServer IP Port => exact ConnectToServer_keeps_bound w IP Port m g hg
  | sendData Data =>
    have : (SendData w Data m).2.client = m.client := by
      unfold SendData
      split
      · rfl
      · simp only []
        split <;> rfl
    simp only [step, this]
    exact hg
  | closeConnection =>
    simp only [step, (CloseConnection_frame m).1]
    exact hg
  | tick =>
    simp only [step, TickComponent_client]
    exact TryReceiveData_keeps_bound w [] _ m g hg
  | configure r n b => exact hg
  | bindObserver id => exact List.mem_append_left _ hg

/-- C4 (as stated, refuted): a component connected with the constructor's
settings has `ConnectToServer` bound to `OnServerDisconnected`; the
`TryReceiveData` call that sees end-of-stream broadcasts, the broadcast runs
`ConnectToServer`, and the component is connected when the call returns. -/
theorem connected_again_when_TryReceiveData_returns :
    IsConnected (run calmWorld boot [.connectToServer "10.0.0.1" 80]).client = true ∧
    calmWorld.recv (run calmWorld boot [.connectToServer "10.0.0.1" 80]).nRecv = .got [] ∧
    IsConnected
      (TryReceiveData calmWorld [] 1024
        (run calmWorld boot [.connectToServer "10.0.0.1" 80])).2.2.client = true := by
  decide

/-- C4 (amended): on a connected component, a `TryReceiveData` call whose
`recv()` returns 0 returns 0, leaves `OutData` as it was and broadcasts
`OnServerDisconnected` exactly once, with the stored `(ServerIP, ServerPort)`;
when `ConnectToServer` is not bound to `OnServerDisconnected`, the call changes
no member variable but `bIsConnected`, which it sets to `false`, so the
component is disconnected when the call returns. -/
theorem TryReceiveData_end_of_stream (w : World) (OutData : List Byte) (BufferSize : Int)
    (m : Machine) (hc : IsConnected m.client = true) (heof : w.recv m.nRecv = .got []) :
    (TryReceiveData w OutData BufferSize m).1 = 0 ∧
    (TryReceiveData w OutData BufferSize m).2.1 = OutData ∧
    disconnectBroadcasts (TryReceiveData w OutData BufferSize m).2.2.trace =
      disconnectBroadcasts m.trace ++ [(m.client.ServerIP, m.client.ServerPort)] ∧
    (Handler.reconnect ∉ m.client.OnServerDisconnected →
      (TryReceiveData w OutData BufferSize m).2.2.client =
        { m.client with bIsConnected := false } ∧
      IsConnected (TryReceiveData w OutData BufferSize m).2.2.client = false) := by
  rw [TryReceiveData_eof_eq w OutData BufferSize m hc heof]
  refine ⟨rfl, rfl, ?_, ?_⟩
  · rw [(Broadcast_trace w _ _ _).1]
    simp [emit, disconnectBroadcasts_append, disconnectBroadcasts]
  · intro hnb
    have hcl := foldl_runHandler_observers w m.client.ServerIP m.client.ServerPort
      m.client.OnServerDisconnected
      (emit (.serverDisconnected m.client.ServerIP m.client.ServerPort)
        { emit (.sysRecv m.client.SocketFD BufferSize) m with
          nRecv := m.nRecv + 1
          client := { m.client with bIsConnected := false } }) hnb
    have hcl2 : (BroadcastServerDisconnected w m.client.ServerIP m.client.ServerPort
        { emit (.sysRecv m.client.SocketFD BufferSize) m with
          nRecv := m.nRecv + 1
          client := { m.client with bIsConnected := false } }).client =
        { m.client with bIsConnected := false } := hcl
    rw [hcl2]
    exact ⟨rfl, by simp [IsConnected]⟩

theorem TryReceiveData_end_of_stream_witness :
    IsConnected (connectedIn calmWorld).client = true ∧
    calmWorld.recv (connectedIn calmWorld).nRecv = .got [] ∧
    ((TryReceiveData calmWorld [7] 1024 (connectedIn calmWorld)).1 = 0 ∧
     (TryReceiveData calmWorld [7] 1024 (connectedIn calmWorld)).2.1 = [7] ∧
     disconnectBroadcasts (TryReceiveData calmWorld [7] 1024 (connectedIn calmWorld)).2.2.trace =
       disconnectBroadcasts (connectedIn calmWorld).trace ++
         [((connectedIn calmWorld).client.ServerIP,
           (connectedIn calmWorld).client.ServerPort)] ∧
     (Handler.reconnect ∉ (connectedIn calmWorld).client.OnServerDisconnected →
       (TryReceiveData calmWorld [7] 1024 (connectedIn calmWorld)).2.2.client =
         { (connectedIn calmWorld).client with bIsConnected := false } ∧
       IsConnected (TryReceiveData calmWorld [7] 1024 (connectedIn calmWorld)).2.2.client
         = false)) :=
  ⟨by decide, by decide,
   TryReceiveData_end_of_stream calmWorld [7] 1024 (connectedIn calmWorld)
     (by decide) (by decide)⟩

/-- C8 (as stated, refuted).  First run: auto-reconnect is on during
`ConnectToServer` and off when end-of-stream is seen; the broadcast calls
`ConnectToServer` once.  Second run: auto-reconnect is off during
`ConnectToServer` and on when end-of-stream is seen; the broadcast calls
`ConnectToServer` zero times. -/
theorem reconnect_follows_binding_not_flag :
    ((run calmWorld boot
        [.connectToServer "10.0.0.1" 80, .configure false 3 1024]).client.bReconnectOnFailure
       = false ∧
     IsConnected (run calmWorld boot
        [.connectToServer "10.0.0.1" 80, .configure false 3 1024]).client = true ∧
     reconnectCalls (run calmWorld boot
        [.connectToServer "10.0.0.1" 80, .configure false 3 1024]).trace = 0 ∧
     reconnectCalls (TryReceiveData calmWorld [] 1024 (run calmWorld boot
        [.connectToServer "10.0.0.1" 80, .configure false 3 1024])).2.2.trace = 1) ∧
    ((run calmWorld boot
        [.configure false 3 1024, .connectToServer "10.0.0.1" 80,
         .configure true 3 1024]).client.bReconnectOnFailure = true ∧
     IsConnected (run calmWorld boot
        [.configure false 3 1024, .connectToServer "10.0.0.1" 80,
         .configure true 3 1024]).client = true ∧
     disconnectBroadcasts (TryReceiveData calmWorld [] 1024 (run calmWorld boot
        [.configure false 3 1024, .connectToServer "10.0.0.1" 80,
         .configure true 3 1024])).2.2.trace = [("10.0.0.1", 80)] ∧
     reconnectCalls (TryReceiveData calmWorld [] 1024 (run calmWorld boot
        [.configure false 3 1024, .connectToServer "10.0.0.1" 80,
         .configure true 3 1024])).2.2.trace = 0) := by
  decide

/-- C8 (amended): in every reachable connected state, the `OnServerDisconnected`
broadcast of a `TryReceiveData` call that sees end-of-stream calls
`ConnectToServer` exactly once when `ConnectToServer` is bound to the delegate
and zero times when it is not, whatever `bReconnectOnFailure` is at that
moment.  An accepted `ConnectToServer` call binds it when `bReconnectOnFailure`
is true and leaves the bindings alone when it is false; no operation ever
unbinds it. -/
theorem reconnect_calls_of_broadcast (w : World) (ops : List Op) (OutData : List Byte)
    (BufferSize : Int) (hc : IsConnected (run w boot ops).client = true)
    (heof : w.recv (run w boot ops).nRecv = .got []) :
    reconnectCalls (TryReceiveData w OutData BufferSize (run w boot ops)).2.2.trace =
      reconnectCalls (run w boot ops).trace +
        (if Handler.reconnect ∈ (run w boot ops).client.OnServerDisconnected then 1 else 0) ∧
    (∀ (m : Machine) (IP : String) (Port : Int), m.client.bIsConnected = false →
      (ConnectToServer w IP Port m).client.OnServerDisconnected =
        if m.client.bReconnectOnFailure = true then
          AddUnique .reconnect m.client.OnServerDisconnected
        else m.client.OnServerDisconnected) ∧
    (∀ (m : Machine) (op : Op), Handler.reconnect ∈ m.client.OnServerDisconnected →
      Handler.reconnect ∈ (step w m op).client.OnServerDisconnected) := by
  refine ⟨?_, ?_, ?_⟩
  · rw [TryReceiveData_eof_eq w OutData BufferSize _ hc heof]
    rw [(Broadcast_trace w _ _ _).2.1]
    have hu := (run_sound w ops boot (by decide) (by decide)).2
    simp only [emit, reconnectCalls_append]
    rw [count_reconnect_of_unique _ hu]
    simp [reconnectCalls]
  · intro m IP Port hm
    rw [ConnectToServer_handlers]
    simp [hm]
  · intro m op h
    exact step_keeps_bound w m op _ h

theorem reconnect_calls_of_broadcast_witness :
    IsConnected (run calmWorld boot
      [.connectToServer "10.0.0.1" 80, .configure false 3 1024]).client = true ∧
    calmWorld.recv (run calmWorld boot
      [.connectToServer "10.0.0.1" 80, .configure false 3 1024]).nRecv = .got [] ∧
    (reconnectCalls (TryReceiveData calmWorld [] 1024 (run calmWorld boot
        [.connectToServer "10.0.0.1" 80, .configure false 3 1024])).2.2.trace =
      reconnectCalls (run calmWorld boot
        [.connectToServer "10.0.0.1" 80, .configure false 3 1024]).trace +
        (if Handler.reconnect ∈ (run calmWorld boot
            [.connectToServer "10.0.0.1" 80,
             .configure false 3 1024]).client.OnServerDisconnected then 1 else 0) ∧
     (∀ (m : Machine) (IP : String) (Port : Int), m.client.bIsConnected = false →
       (ConnectToServer calmWorld IP Port m).client.OnServerDisconnected =
         if m.client.bReconnectOnFailure = true then
           AddUnique .reconnect m.client.OnServerDisconnected
         else m.client.OnServerDisconnected) ∧
     (∀ (m : Machine) (op : Op), Handler.reconnect ∈ m.client.OnServerDisconnected →
       Handler.reconnect ∈ (step calmWorld m op).client.OnServerDisconnected)) :=
  ⟨by decide, by decide,
   reconnect_calls_of_broadcast calmWorld
     [.connectToServer "10.0.0.1" 80, .configure false 3 1024] [] 1024
     (by decide) (by decide)⟩

/-! ## C9: the bytes received are the bytes delivered -/

theorem TryReceiveData_no_eof (w : World) (OutData : List Byte) (BufferSize : Int)
    (m : Machine) (hc : IsConnected m.client = true) (r : RecvRet)
    (hr : w.recv m.nRecv = r) (hne : r ≠ .got []) :
    TryReceiveData w OutData BufferSize m =
      ((r.bytes.length : Int), OutData ++ r.bytes,
        { emit (.sysRecv m.client.SocketFD BufferSize) m with nRecv := m.nRecv + 1 }) := by
  cases r with
  | fail e =>
    rw [TryReceiveData_error_eq w OutData BufferSize m hc e hr]
    simp [RecvRet.bytes]
  | got chunk =>
    have hch : chunk ≠ [] := fun e => hne (by rw [e])
    rw [TryReceiveData_bytes_eq w OutData BufferSize m hc chunk hch hr]
    rfl

theorem TickComponent_no_eof (w : World) (m : Machine) (hc : IsConnected m.client = true)
    (r : RecvRet) (hr : w.recv m.nRecv = r) (hne : r ≠ .got []) :
    (TickComponent w m).client = m.client ∧
    (TickComponent w m).nRecv = m.nRecv + 1 ∧
    dataBroadcasts (TickComponent w m).trace =
      dataBroadcasts m.trace ++ [r.bytes].filter (fun b => !b.isEmpty) := by
  have hc2 : (m.client.bIsConnected && decide (m.client.SocketFD ≠ -1)) = true := hc
  unfold TickComponent
  rw [if_pos hc2]
  simp only []
  rw [TryReceiveData_no_eof w [] _ m hc r hr hne]
  simp only [List.nil_append]
  by_cases hb : r.bytes = []
  · have h0 : ¬ ((r.bytes.length : Int) > 0) := by simp [hb]
    rw [if_neg h0]
    refine ⟨rfl, rfl, ?_⟩
    simp [emit, dataBroadcasts_append, dataBroadcasts, hb]
  · have hpos : (r.bytes.length : Int) > 0 := by
      have := List.length_pos.2 hb
      omega
    rw [if_pos hpos]
    refine ⟨rfl, rfl, ?_⟩
    have hf : [r.bytes].filter (fun b => !b.isEmpty) = [r.bytes] := by
      have he : r.bytes.isEmpty = false := by
        cases hbs : r.bytes with
        | nil => exact absurd hbs hb
        | cons x xs => rfl
      simp [List.filter, he]
    rw [hf]
    simp [emit, dataBroadcasts_append, dataBroadcasts]

theorem receiveMany_stream (w : World) (BufferSize : Int) (rs : List RecvRet)
    (OutData : List Byte) (m : Machine) (hc : IsConnected m.client = true)
    (hrs : Delivers w m.nRecv rs) (hne : RecvRet.got [] ∉ rs) :
    (receiveMany w BufferSize rs.length OutData m).1 = OutData ++ delivered rs ∧
    (receiveMany w BufferSize rs.length OutData m).2.client = m.client ∧
    (w.recv (m.nRecv + rs.length) = .got [] →
      (receiveMany w BufferSize (rs.length + 1) OutData m).1 = OutData ++ delivered rs) := by
  induction rs generalizing OutData m with
  | nil =>
    refine ⟨by simp [receiveMany, delivered], rfl, ?_⟩
    intro heof
    simp only [List.length_nil, Nat.add_zero] at heof
    simp only [List.length_nil, receiveMany, delivered, List.append_nil]
    rw [TryReceiveData_eof_eq w OutData BufferSize m hc heof]
  | cons r rs ih =>
    obtain ⟨hr, hrest⟩ := hrs
    have hr0 : r ≠ .got [] := fun e => hne (by rw [e]; exact List.mem_cons_self _ _)
    have hne2 : RecvRet.got [] ∉ rs := fun e => hne (List.mem_cons_of_mem _ e)
    have hstep := TryReceiveData_no_eof w OutData BufferSize m hc r hr hr0
    obtain ⟨a, b, c⟩ := ih (OutData ++ r.bytes)
      { emit (.sysRecv m.client.SocketFD BufferSize) m with nRecv := m.nRecv + 1 }
      hc hrest hne2
    simp only [List.length_cons, receiveMany, hstep, delivered]
    refine ⟨by rw [a, List.append_assoc], b, ?_⟩
    intro heof
    have := c (by
      have e : m.nRecv + 1 + rs.length = m.nRecv + (rs.length + 1) := by omega
      simpa [e] using heof)
    simp only [receiveMany] at this
    rw [this, List.append_assoc]

theorem ticks_stream (w : World) (rs : List RecvRet) (m : Machine)
    (hc : IsConnected m.client = true) (hrs : Delivers w m.nRecv rs)
    (hne : RecvRet.got [] ∉ rs) :
    (run w m (List.replicate rs.length .tick)).client = m.client ∧
    dataBroadcasts (run w m (List.replicate rs.length .tick)).trace =
      dataBroadcasts m.trace ++ (rs.map RecvRet.bytes).filter (fun b => !b.isEmpty) := by
  induction rs generalizing m with
  | nil => simp [run]
  | cons r rs ih =>
    obtain ⟨hr, hrest⟩ := hrs
    have hr0 : r ≠ .got [] := fun e => hne (by rw [e]; exact List.mem_cons_self _ _)
    have hne2 : RecvRet.got [] ∉ rs := fun e => hne (List.mem_cons_of_mem _ e)
    obtain ⟨t1, t2, t3⟩ := TickComponent_no_eof w m hc r hr hr0
    obtain ⟨a, b⟩ := ih (TickComponent w m) (by rw [t1]; exact hc)
      (by rw [t2]; exact hrest) hne2
    have hrun : run w m (List.replicate (r :: rs).length .tick) =
        run w (TickComponent w m) (List.replicate rs.length .tick) := by
      simp [run, List.replicate_succ, step]
    rw [hrun, a, b, t1, t3]
    refine ⟨rfl, ?_⟩
    rw [List.append_assoc, List.map_cons, ← List.filter_append]
    rfl

/-- C9: on a connected component whose next `recv()` calls have the outcomes
`rs` (chunks of bytes, would-block and other errors, in any order, none of them
end-of-stream): each `TryReceiveData` call returns the number of bytes its
`recv()` returned, appends exactly those bytes to `OutData` and changes no
member variable; successive calls on one buffer leave it holding what it held
followed by the stream `rs` delivers, and the call that then sees end-of-stream
adds nothing; the ticks broadcast `OnDataReceived` once for each non-empty
chunk, in order, with exactly that chunk, and leave the member variables
alone. -/
theorem received_bytes_equal_stream (w : World) (BufferSize : Int) (OutData : List Byte)
    (m : Machine) (rs : List RecvRet) (hc : IsConnected m.client = true)
    (hrs : Delivers w m.nRecv rs) (hne : RecvRet.got [] ∉ rs) :
    (w.recv m.nRecv ≠ .got [] →
      (TryReceiveData w OutData BufferSize m).1 = ((w.recv m.nRecv).bytes.length : Int) ∧
      (TryReceiveData w OutData BufferSize m).2.1 = OutData ++ (w.recv m.nRecv).bytes ∧
      (TryReceiveData w OutData BufferSize m).2.2.client = m.client) ∧
    (receiveMany w BufferSize rs.length OutData m).1 = OutData ++ delivered rs ∧
    (receiveMany w BufferSize rs.length OutData m).2.client = m.client ∧
    (w.recv (m.nRecv + rs.length) = .got [] →
      (receiveMany w BufferSize (rs.length + 1) OutData m).1 = OutData ++ delivered rs) ∧
    (run w m (List.replicate rs.length .tick)).client = m.client ∧
    dataBroadcasts (run w m (List.replicate rs.length .tick)).trace =
      dataBroadcasts m.trace ++ (rs.map RecvRet.bytes).filter (fun b => !b.isEmpty) := by
  obtain ⟨a, b, c⟩ := receiveMany_stream w BufferSize rs OutData m hc hrs hne
  obtain ⟨d, e⟩ := ticks_stream w rs m hc hrs hne
  refine ⟨?_, a, b, c, d, e⟩
  intro h
  rw [TryReceiveData_no_eof w OutData BufferSize m hc _ rfl h]
  exact ⟨rfl, rfl, rfl⟩

theorem received_bytes_equal_stream_witness :
    IsConnected (connectedIn streamWorld).client = true ∧
    Delivers streamWorld (connectedIn streamWorld).nRecv
      [.got [1, 2], .fail .EAGAIN, .got [3]] ∧
    (receiveMany streamWorld 1024 3 [9] (connectedIn streamWorld)).1 = [9, 1, 2, 3] ∧
    (receiveMany streamWorld 1024 4 [9] (connectedIn streamWorld)).1 = [9, 1, 2, 3] ∧
    dataBroadcasts (run streamWorld (connectedIn streamWorld)
      [.tick, .tick, .tick]).trace = [[1, 2], [3]] := by
  have hd : Delivers streamWorld (connectedIn streamWorld).nRecv
      [.got [1, 2], .fail .EAGAIN, .got [3]] := ⟨rfl, rfl, rfl, trivial⟩
  have h := received_bytes_equal_stream streamWorld 1024 [9] (connectedIn streamWorld)
    [.got [1, 2], .fail .EAGAIN, .got [3]] (by decide) hd (by decide)
  exact ⟨by decide, hd, h.2.1, h.2.2.2.1 rfl, h.2.2.2.2.2⟩

end TCPClient
